import Mathlib

/-!
Verification of the AML compliance / payment verification core of the
a2a-x402 TypeScript repository, as a shallow embedding in Lean 4.

External calls (sanctions oracle, JSON-RPC chain reads, signature
recovery) are modelled by an environment record carrying the outcome of
each call for the run under consideration; a call that throws is an
`Except.error` outcome.  JavaScript sets of address strings are modelled
as duplicate-free lists, JavaScript objects used as string-keyed maps as
association lists.
-/

namespace X402

/-- Model of JavaScript `String.prototype.toLowerCase` as used on ASCII
hex address strings. -/
def lowerStr (s : String) : String := ⟨s.data.map Char.toLower⟩

/-- JavaScript `Set.prototype.add` on a set modelled as a list: inserting
an element already present is a no-op. -/
def setAdd (s : List String) (a : String) : List String :=
  if s.contains a then s else s ++ [a]

/-- Which external chain reads `analyzeOnChainBehavior` attempted, in
order: `provider.getCode`, `provider.getTransactionCount`,
`provider.getBalance`. -/
inductive ReadEvent where
  | getCode
  | getTxCount
  | getBalance
deriving DecidableEq, Repr

/-- Risk level enumeration from `AMLChecker.ts`. -/
inductive RiskLevel where
  | LOW
  | MEDIUM
  | HIGH
  | CRITICAL
deriving DecidableEq, Repr

/-- Return value of `analyzeOnChainBehavior`. -/
structure BehaviorData where
  walletAge : Nat
  transactionCount : Nat
  isContract : Bool
  riskFactors : List String
deriving DecidableEq, Repr

/-- Outcomes of the external calls a single AML check can make.
`isValidAddress` is the answer of `ethers.isAddress` for the checked
address; each `Except.error` models the corresponding provider call
throwing. -/
structure ChainEnv where
  isValidAddress : Bool
  oraclePresent : Bool
  oracleResult : Except String Bool
  fallbackToLocal : Bool
  codeResult : Except String String
  txCountResult : Except String Nat
  balanceResult : Except String Nat

/-- Result record of `AMLChecker.checkAddress` (`AMLCheckResult` in
`AMLChecker.ts`, with the `metadata` object flattened into fields). -/
structure AMLCheckResult where
  address : String
  riskScore : Nat
  riskLevel : RiskLevel
  flags : List String
  sanctioned : Bool
  walletAge : Nat
  transactionCount : Nat
  isContract : Bool
  hasTokens : Bool
deriving DecidableEq, Repr

namespace AMLChecker

/-- Method `AMLChecker.isSanctioned` from
`src/x402_a2a/core/compliance/AMLChecker.ts` (lines 132-158): query the
oracle when present; an oracle hit is cached into the local set and
returned at once; an oracle fault throws when `fallbackToLocal` is off
and otherwise falls through; finally the decision is
`oracleSanctioned || localList.has(address.toLowerCase())`.
Returns the decision together with the updated local set. -/
def isSanctioned (env : ChainEnv) (sanctionedAddresses : List String)
    (address : String) : Except String (Bool × List String) :=
  if env.oraclePresent then
    match env.oracleResult with
    | Except.ok true =>
        Except.ok (true, setAdd sanctionedAddresses (lowerStr address))
    | Except.ok false =>
        Except.ok (sanctionedAddresses.contains (lowerStr address),
                   sanctionedAddresses)
    | Except.error e =>
        if env.fallbackToLocal then
          Except.ok (sanctionedAddresses.contains (lowerStr address),
                     sanctionedAddresses)
        else
          Except.error e
  else
    Except.ok (sanctionedAddresses.contains (lowerStr address),
               sanctionedAddresses)

/-- Method `AMLChecker.isSanctioned` from the second copy of the checker in the
repository (`src/unnamed/part_003`, lines 130-156): when the oracle call
succeeds its boolean answer is returned directly (after caching a hit),
so the local list is consulted only when there is no oracle or the
oracle call throws with `fallbackToLocal` on. -/
def isSanctionedDemo (env : ChainEnv) (sanctionedAddresses : List String)
    (address : String) : Except String (Bool × List String) :=
  if env.oraclePresent then
    match env.oracleResult with
    | Except.ok b =>
        Except.ok (b, if b then setAdd sanctionedAddresses (lowerStr address)
                      else sanctionedAddresses)
    | Except.error e =>
        if env.fallbackToLocal then
          Except.ok (sanctionedAddresses.contains (lowerStr address),
                     sanctionedAddresses)
        else
          Except.error e
  else
    Except.ok (sanctionedAddresses.contains (lowerStr address),
               sanctionedAddresses)

/-- The sanctions decision as the specification words it: the logical OR
of the oracle answer and case-insensitive membership in the local list.
Used only to compare the implementations against the spec sentence. -/
def sanctionedSpecOr (oracleFlagged : Bool) (sanctionedAddresses : List String)
    (address : String) : Bool :=
  oracleFlagged || sanctionedAddresses.contains (lowerStr address)

/-- Whether the oracle flagged the address in environment `env`: an
oracle is present and its call returned `true`. -/
def oracleFlagged (env : ChainEnv) : Bool :=
  env.oraclePresent && (match env.oracleResult with
    | Except.ok true => true
    | _ => false)

/-- Method `AMLChecker.analyzeOnChainBehavior` (`AMLChecker.ts` lines 163-223):
reads code presence, transaction count and (when the transaction count
is positive) the balance; any fault of the code or transaction-count
read degrades to the zero-valued record flagged `Analysis failed`; a
balance fault is swallowed silently.  Also returns the list of chain
reads attempted, in order. -/
def analyzeOnChainBehavior (env : ChainEnv) :
    BehaviorData × List ReadEvent :=
  match env.codeResult with
  | Except.error _ =>
      (⟨0, 0, false, ["Analysis failed"]⟩, [ReadEvent.getCode])
  | Except.ok code =>
      let isContract := code ≠ "0x"
      let rf0 : List String := if isContract then ["Contract address"] else []
      match env.txCountResult with
      | Except.error _ =>
          (⟨0, 0, false, ["Analysis failed"]⟩,
           [ReadEvent.getCode, ReadEvent.getTxCount])
      | Except.ok transactionCount =>
          if transactionCount > 0 then
            match env.balanceResult with
            | Except.error _ =>
                (⟨0, transactionCount, isContract, rf0⟩,
                 [ReadEvent.getCode, ReadEvent.getTxCount, ReadEvent.getBalance])
            | Except.ok balance =>
                let rf1 := rf0 ++ (if transactionCount < 10 then ["New wallet"] else [])
                let rf2 := rf1 ++ (if balance = 0 then ["Zero balance"] else [])
                (⟨transactionCount / 10, transactionCount, isContract, rf2⟩,
                 [ReadEvent.getCode, ReadEvent.getTxCount, ReadEvent.getBalance])
          else
            (⟨0, transactionCount, isContract, rf0 ++ ["No transactions"]⟩,
             [ReadEvent.getCode, ReadEvent.getTxCount])

/-- Method `AMLChecker.calculateRiskScore` (`AMLChecker.ts` lines 228-266):
sanctioned is an automatic 100; otherwise +30 for a contract, +40/+25/+10
by transaction count bucket, +20/+10 by wallet-age bucket, capped at 100. -/
def calculateRiskScore (sanctioned : Bool) (onChainData : BehaviorData) : Nat :=
  if sanctioned then 100
  else
    let s1 : Nat := if onChainData.isContract then 30 else 0
    let s2 : Nat := s1 +
      (if onChainData.transactionCount = 0 then 40
       else if onChainData.transactionCount < 10 then 25
       else if onChainData.transactionCount < 50 then 10
       else 0)
    let s3 : Nat := s2 +
      (if onChainData.walletAge < 1 then 20
       else if onChainData.walletAge < 7 then 10
       else 0)
    min s3 100

/-- Method `AMLChecker.getRiskLevel` (`AMLChecker.ts` lines 271-276). -/
def getRiskLevel (score : Nat) : RiskLevel :=
  if score ≥ 90 then RiskLevel.CRITICAL
  else if score ≥ 70 then RiskLevel.HIGH
  else if score ≥ 40 then RiskLevel.MEDIUM
  else RiskLevel.LOW

/-- Method `AMLChecker.checkAddress` (`AMLChecker.ts` lines 281-318): validate
the address (throwing on an invalid one), decide sanctions, run the
behavioral analysis unconditionally, compose score, level and flags.
Returns the result, the updated local sanctions set and the chain reads
attempted by the behavioral analysis. -/
def checkAddress (env : ChainEnv) (sanctionedAddresses : List String)
    (address : String) :
    Except String (AMLCheckResult × List String × List ReadEvent) :=
  if env.isValidAddress = false then
    Except.error ("Invalid Ethereum address: " ++ address)
  else
    match isSanctioned env sanctionedAddresses address with
    | Except.error e => Except.error e
    | Except.ok (sanctioned, set1) =>
        let flags0 : List String := if sanctioned then ["SANCTIONED"] else []
        let analyzed := analyzeOnChainBehavior env
        let onChainData := analyzed.1
        let flags := flags0 ++ onChainData.riskFactors
        let riskScore := calculateRiskScore sanctioned onChainData
        Except.ok
          ({ address := address
             riskScore := riskScore
             riskLevel := getRiskLevel riskScore
             flags := flags
             sanctioned := sanctioned
             walletAge := onChainData.walletAge
             transactionCount := onChainData.transactionCount
             isContract := onChainData.isContract
             hasTokens := onChainData.transactionCount > 0 },
           set1, analyzed.2)

/-- Method `AMLChecker.isAddressAllowed` (`AMLChecker.ts` lines 323-328):
`allowed = riskScore < riskThreshold && !sanctioned`. -/
def isAddressAllowed (env : ChainEnv) (sanctionedAddresses : List String)
    (riskThreshold : Nat) (address : String) :
    Except String ((Bool × AMLCheckResult) × List String × List ReadEvent) :=
  match checkAddress env sanctionedAddresses address with
  | Except.error e => Except.error e
  | Except.ok (result, set1, reads) =>
      Except.ok ((decide (result.riskScore < riskThreshold) && !result.sanctioned,
                  result), set1, reads)

end AMLChecker

namespace AMLModifier

/-- Policy configuration of `AMLModifier` (`src/unnamed/part_002`). -/
structure AMLModifierConfig where
  enabled : Bool
  riskThreshold : Nat
  requireManualReview : Bool
deriving DecidableEq, Repr

/-- The `aml` metadata object produced by `AMLModifier.execute`: either a
completed check carrying the assessment, or the catch-branch record
`checked: false` with the error text. -/
inductive AMLMetaBlock where
  | checkResult (result : AMLCheckResult)
  | checkError (error : String)
deriving DecidableEq, Repr

/-- Verdict of `AMLModifier.execute`, with the metadata object flattened
into the fields the code can put in it: the `aml` block, the
`requiresManualReview` flag, and the `amlEnabled` flag of the disabled
branch. -/
structure ModifierResult where
  allowed : Bool
  reason : Option String
  amlMeta : Option AMLMetaBlock
  requiresManualReview : Bool
  amlEnabled : Option Bool
deriving DecidableEq, Repr

/-- Method `AMLModifier.execute` (`src/unnamed/part_002`, lines 62-167):
disabled means allow; a missing (or empty, hence falsy) payer denies;
otherwise run `isAddressAllowed`; a sanctioned result always denies;
a not-allowed result is soft-passed with `requiresManualReview` when
manual review is on and the level is exactly HIGH, and denied otherwise;
an allowed result passes; any fault from the checker denies. -/
def execute (config : AMLModifierConfig) (env : ChainEnv)
    (sanctionedAddresses : List String) (payer : Option String) : ModifierResult :=
  if config.enabled = false then
    { allowed := true, reason := none, amlMeta := none,
      requiresManualReview := false, amlEnabled := some false }
  else if payer = none ∨ payer = some "" then
    { allowed := false,
      reason := some "Cannot perform AML check: payer address not found",
      amlMeta := none, requiresManualReview := false, amlEnabled := none }
  else
    match AMLChecker.isAddressAllowed env sanctionedAddresses
        config.riskThreshold (payer.getD "") with
    | Except.error e =>
        { allowed := false, reason := some "AML check error",
          amlMeta := some (AMLMetaBlock.checkError e),
          requiresManualReview := false, amlEnabled := none }
    | Except.ok ((allowed, result), _, _) =>
        if result.sanctioned then
          { allowed := false, reason := some "SANCTIONED address",
            amlMeta := some (AMLMetaBlock.checkResult result),
            requiresManualReview := false, amlEnabled := none }
        else if allowed = false then
          if config.requireManualReview = true ∧ result.riskLevel = RiskLevel.HIGH then
            { allowed := true, reason := some "HIGH RISK - Requires manual review",
              amlMeta := some (AMLMetaBlock.checkResult result),
              requiresManualReview := true, amlEnabled := none }
          else
            { allowed := false,
              reason := some ("Risk score too high (" ++ toString result.riskScore
                ++ "/" ++ toString config.riskThreshold ++ ")"),
              amlMeta := some (AMLMetaBlock.checkResult result),
              requiresManualReview := false, amlEnabled := none }
        else
          { allowed := true, reason := none,
            amlMeta := some (AMLMetaBlock.checkResult result),
            requiresManualReview := false, amlEnabled := none }

end AMLModifier

namespace RealFacilitator

/-- Values stored in the string-keyed metadata objects threaded through
the modifier pipeline of `RealFacilitator.verify`. -/
inductive MVal where
  | boolV (b : Bool)
  | natV (n : Nat)
  | strV (s : String)
  | amlV (block : AMLModifier.AMLMetaBlock)
deriving DecidableEq, Repr

/-- A JavaScript object used as a string-keyed map, as an association
list (unique keys when it models a literal object). -/
abbrev MetaMap := List (String × MVal)

/-- Assigning one key of a JavaScript object: replace the value in place
when the key exists, append the pair otherwise. -/
def setKey (m : MetaMap) (k : String) (v : MVal) : MetaMap :=
  if m.any (fun p => p.1 = k) then
    m.map (fun p => if p.1 = k then (k, v) else p)
  else
    m ++ [(k, v)]

/-- The object spread `\x7b...old, ...new\x7d` of
`RealFacilitator.verify`: keys of `new` overwrite keys of `old`, fresh
keys are appended in order. -/
def mergeMeta (old new : MetaMap) : MetaMap :=
  new.foldl (fun acc p => setKey acc p.1 p.2) old

/-- Verdict returned by one modifier inside the facilitator pipeline
(`ModifierResult` of `BaseModifier.ts`, with generic metadata). -/
structure PipeResult where
  allowed : Bool
  reason : Option String
  metadata : MetaMap
deriving DecidableEq, Repr

/-- A registered modifier as the facilitator sees it: a priority, a name
and an `execute` behaviour.  For a fixed run the context fields other
than the accumulated metadata are constants, so the behaviour is a
function of the metadata; a throwing `execute` is an `Except.error`. -/
structure FModifier where
  priority : Int
  name : String
  exec : MetaMap → Except String PipeResult

/-- The constructor of `RealFacilitator` sorts the registered modifiers
ascending by priority (`this.modifiers.sort((a, b) => a.priority -
b.priority)`), a stable ascending sort. -/
def sortModifiers (modifiers : List FModifier) : List FModifier :=
  modifiers.insertionSort (fun a b => a.priority ≤ b.priority)

/-- Outcome of the modifier loop of `RealFacilitator.verify`: a thrown
fault (reaching the outer catch), a denial with the accumulated
`amlCheckData`, or completion with the accumulated `amlCheckData` and
final metadata. -/
inductive LoopOutcome where
  | fault (msg : String)
  | denied (reason : String) (amlCheck : Option MVal)
  | passed (amlCheck : Option MVal) (metadata : MetaMap)
deriving DecidableEq, Repr

/-- Statement `if (result.metadata?.aml) amlCheckData = result.metadata.aml`. -/
def updateAml (aml : Option MVal) (resultMeta : MetaMap) : Option MVal :=
  match resultMeta.lookup "aml" with
  | some v => some v
  | none => aml

/-- The modifier loop of `RealFacilitator.verify` (`src/unnamed/part_000`):
run each modifier in list order on the accumulated metadata; record its
`aml` metadata if present; stop at the first `allowed=false` verdict,
returning its reason (or `Rejected by` plus the modifier name when the
reason is absent); merge the metadata of an allowing verdict into the
context before the next modifier runs.  Also returns the names of the
modifiers that were invoked, in order. -/
def runModifiers : List FModifier → MetaMap → Option MVal →
    LoopOutcome × List String
  | [], meta, aml => (LoopOutcome.passed aml meta, [])
  | m :: ms, meta, aml =>
      match m.exec meta with
      | Except.error e => (LoopOutcome.fault e, [m.name])
      | Except.ok r =>
          let aml1 := updateAml aml r.metadata
          if r.allowed then
            let rest := runModifiers ms (mergeMeta meta r.metadata) aml1
            (rest.1, m.name :: rest.2)
          else
            (LoopOutcome.denied (r.reason.getD ("Rejected by " ++ m.name)) aml1,
             [m.name])

/-- The `PaymentRequirements` fields used by `RealFacilitator`. -/
structure PaymentRequirements where
  asset : String
  payTo : String
  maxAmountRequired : Nat
  network : String
deriving DecidableEq, Repr

/-- The `authorization` object of an exact payment payload; `extraMessage`
models `authorization.extra.message` when present. -/
structure Authorization where
  fromAddress : String
  extraMessage : Option String
deriving DecidableEq, Repr

/-- Record `payload.payload` when it carries an `authorization`. -/
structure ExactPayload where
  authorization : Authorization
  signature : String
deriving DecidableEq, Repr

/-- The `PaymentPayload` fields used by `RealFacilitator.verify`; `exact` is
`none` when `payload.payload` has no `authorization` member. -/
structure PaymentPayload where
  network : String
  exact : Option ExactPayload
deriving DecidableEq, Repr

/-- The `VerifyResponse` fields produced by `RealFacilitator.verify`. -/
structure VerifyResponse where
  isValid : Bool
  invalidReason : Option String
  payer : Option String
  amlCheck : Option MVal
deriving DecidableEq, Repr

/-- Outcomes of the external calls `RealFacilitator.verify` makes:
`ethers.verifyMessage(message, signature)` and the token
`balanceOf(payer)` read. -/
structure FacEnv where
  recover : String → String → Except String String
  balanceOf : String → Except String Nat

/-- The signed-message template reconstructed by `RealFacilitator.verify`
when the authorization carries no explicit message. -/
def buildMessage (network asset payer payTo : String) (amount : Nat) : String :=
  "Chain ID: " ++ network ++ "\nContract: " ++ asset ++ "\nUser: " ++ payer
    ++ "\nReceiver: " ++ payTo ++ "\nAmount: " ++ toString amount ++ "\n"

/-- The message `RealFacilitator.verify` passes to signature recovery:
the explicit `authorization.extra.message` when present and non-empty
(an empty one is falsy), the reconstructed template otherwise. -/
def messageFor (payload : PaymentPayload) (requirements : PaymentRequirements)
    (ep : ExactPayload) : String :=
  match ep.authorization.extraMessage with
  | some m =>
      if m = "" then
        buildMessage payload.network requirements.asset ep.authorization.fromAddress
          requirements.payTo requirements.maxAmountRequired
      else m
  | none =>
      buildMessage payload.network requirements.asset ep.authorization.fromAddress
        requirements.payTo requirements.maxAmountRequired

/-- Method `RealFacilitator.verify` (`src/unnamed/part_000`, lines 273-399):
extract payer and signature (a missing or falsy one fails); take the
explicit message or reconstruct the template; recover the signer and
compare case-insensitively with the payer; read the payer balance and
fail below the required amount; then run the modifier loop.  Every
throwing step lands in the single outer catch, which returns
`isValid=false` with the fault message and no payer.  Returns the
response together with the names of the modifiers that were invoked. -/
def verify (env : FacEnv) (payload : PaymentPayload)
    (requirements : PaymentRequirements) (modifiers : List FModifier) :
    VerifyResponse × List String :=
  match payload.exact with
  | none =>
      ({ isValid := false, invalidReason := some "Missing payer address or signature",
         payer := none, amlCheck := none }, [])
  | some ep =>
      let payer := ep.authorization.fromAddress
      let signature := ep.signature
      if payer = "" ∨ signature = "" then
        ({ isValid := false, invalidReason := some "Missing payer address or signature",
           payer := some payer, amlCheck := none }, [])
      else
        match env.recover (messageFor payload requirements ep) signature with
        | Except.error e =>
            ({ isValid := false, invalidReason := some e,
               payer := none, amlCheck := none }, [])
        | Except.ok recoveredAddress =>
            if lowerStr recoveredAddress ≠ lowerStr payer then
              ({ isValid := false,
                 invalidReason := some ("Signature verification failed. Expected "
                   ++ payer ++ ", got " ++ recoveredAddress),
                 payer := some payer, amlCheck := none }, [])
            else
              match env.balanceOf payer with
              | Except.error e =>
                  ({ isValid := false, invalidReason := some e,
                     payer := none, amlCheck := none }, [])
              | Except.ok balance =>
                  if balance < requirements.maxAmountRequired then
                    ({ isValid := false, invalidReason := some "Insufficient balance",
                       payer := some payer, amlCheck := none }, [])
                  else
                    match runModifiers modifiers [] none with
                    | (LoopOutcome.fault e, tr) =>
                        ({ isValid := false, invalidReason := some e,
                           payer := none, amlCheck := none }, tr)
                    | (LoopOutcome.denied reason aml, tr) =>
                        ({ isValid := false, invalidReason := some reason,
                           payer := some payer, amlCheck := aml }, tr)
                    | (LoopOutcome.passed aml _, tr) =>
                        ({ isValid := true, invalidReason := none,
                           payer := some payer, amlCheck := aml }, tr)

end RealFacilitator

/-!
Helper lemmas about the embedded operations.
-/

/-- A non-sanctioned composite risk score never exceeds 90 (at most
30 + 40 + 20). -/
theorem calculateRiskScore_le_90 (d : BehaviorData) :
    AMLChecker.calculateRiskScore false d ≤ 90 := by
  simp only [AMLChecker.calculateRiskScore, Bool.false_eq_true, if_false]
  split_ifs <;> omega

/-- The composite risk score is exactly 100 precisely for sanctioned
input. -/
theorem calculateRiskScore_eq_100_iff (b : Bool) (d : BehaviorData) :
    AMLChecker.calculateRiskScore b d = 100 ↔ b = true := by
  cases b
  · simp only [Bool.false_eq_true, iff_false]
    have := calculateRiskScore_le_90 d
    omega
  · simp [AMLChecker.calculateRiskScore]

/-- Every path through the behavioral analysis attempts the code read. -/
theorem getCode_mem_analyze (env : ChainEnv) :
    ReadEvent.getCode ∈ (AMLChecker.analyzeOnChainBehavior env).2 := by
  unfold AMLChecker.analyzeOnChainBehavior
  rcases env.codeResult with e | c
  · simp
  · rcases env.txCountResult with e | n
    · simp
    · by_cases hn : n > 0
      · rcases env.balanceResult with e | b <;> simp [hn]
      · simp [hn]

/-- Behavioral analysis of a non-contract address with no transactions. -/
theorem analyze_tx0 (env : ChainEnv)
    (hc : env.codeResult = Except.ok "0x") (ht : env.txCountResult = Except.ok 0) :
    AMLChecker.analyzeOnChainBehavior env =
      (⟨0, 0, false, ["No transactions"]⟩, [ReadEvent.getCode, ReadEvent.getTxCount]) := by
  unfold AMLChecker.analyzeOnChainBehavior
  rw [hc, ht]
  simp

/-- Behavioral analysis of a contract address with no transactions. -/
theorem analyze_contract_tx0 (env : ChainEnv) (c : String)
    (hc : env.codeResult = Except.ok c) (hcc : c ≠ "0x")
    (ht : env.txCountResult = Except.ok 0) :
    AMLChecker.analyzeOnChainBehavior env =
      (⟨0, 0, true, ["Contract address", "No transactions"]⟩,
       [ReadEvent.getCode, ReadEvent.getTxCount]) := by
  unfold AMLChecker.analyzeOnChainBehavior
  rw [hc, ht]
  simp [hcc]

/-- A fault of the code read or of the transaction-count read degrades
the behavioral analysis to the zero-valued record with the single flag
`Analysis failed`. -/
theorem analyze_failed (env : ChainEnv)
    (hf : (∃ e, env.codeResult = Except.error e) ∨
          (∃ e, env.txCountResult = Except.error e)) :
    ∃ reads, AMLChecker.analyzeOnChainBehavior env =
      (⟨0, 0, false, ["Analysis failed"]⟩, reads) := by
  rcases hc : env.codeResult with e | c
  · exact ⟨[ReadEvent.getCode], by unfold AMLChecker.analyzeOnChainBehavior; rw [hc]⟩
  · rcases hf with ⟨e, he⟩ | ⟨e, he⟩
    · rw [hc] at he
      exact absurd he (by simp)
    · refine ⟨[ReadEvent.getCode, ReadEvent.getTxCount], ?_⟩
      unfold AMLChecker.analyzeOnChainBehavior
      rw [hc, he]

/-- Inserting an element makes it a member of the set. -/
theorem mem_setAdd (s : List String) (a : String) : a ∈ setAdd s a := by
  unfold setAdd
  split
  · next hc => simpa using hc
  · simp

namespace RealFacilitator

/-- Lookup misses a key absent from the association list. -/
theorem lookup_none_of_not_mem (m : MetaMap) (k : String)
    (h : k ∉ m.map Prod.fst) : m.lookup k = none := by
  induction m with
  | nil => rfl
  | cons p m ih =>
    simp only [List.map_cons, List.mem_cons, not_or] at h
    have hb : (k == p.1) = false := by simp [h.1]
    simp [List.lookup, hb, ih h.2]

/-- Replacing the value at key `k` leaves lookups of other keys alone. -/
theorem lookup_replace_ne (m : MetaMap) (k k2 : String) (v : MVal) (hne : k2 ≠ k) :
    (m.map (fun p => if p.1 = k then (k, v) else p)).lookup k2 = m.lookup k2 := by
  induction m with
  | nil => rfl
  | cons p m ih =>
    by_cases hpk : p.1 = k
    · simp only [List.map_cons, if_pos hpk]
      have h1 : (k2 == k) = false := by simp [hne]
      have h2 : (k2 == p.1) = false := by
        rw [hpk]
        simp [hne]
      simp [List.lookup, h1, h2, ih]
    · simp only [List.map_cons, if_neg hpk]
      by_cases hk : k2 = p.1
      · have hb : (k2 == p.1) = true := by simp [hk]
        simp [List.lookup, hb]
      · have hb : (k2 == p.1) = false := by simp [hk]
        simp [List.lookup, hb, ih]

/-- Replacing the value at a present key makes its lookup the new value. -/
theorem lookup_replace_self (m : MetaMap) (k : String) (v : MVal)
    (hany : m.any (fun p => decide (p.1 = k)) = true) :
    (m.map (fun p => if p.1 = k then (k, v) else p)).lookup k = some v := by
  induction m with
  | nil => simp at hany
  | cons p m ih =>
    by_cases hpk : p.1 = k
    · simp only [List.map_cons, if_pos hpk]
      simp [List.lookup]
    · simp only [List.any_cons, Bool.or_eq_true, decide_eq_true_eq] at hany
      rcases hany with h | h
      · exact absurd h hpk
      · simp only [List.map_cons, if_neg hpk]
        have hb : (k == p.1) = false := by
          simp only [beq_eq_false_iff_ne, ne_eq]
          exact fun hc => hpk hc.symm
        simp [List.lookup, hb, ih h]

/-- Lookup over an appended singleton pair. -/
theorem lookup_append_pair (m : MetaMap) (k k2 : String) (v : MVal) :
    (m ++ [(k, v)]).lookup k2 =
      match m.lookup k2 with
      | some w => some w
      | none => if k2 = k then some v else none := by
  induction m with
  | nil =>
    simp only [List.nil_append, List.lookup]
    by_cases hk : k2 = k
    · have hb : (k2 == k) = true := by simp [hk]
      simp [hb, hk]
    · have hb : (k2 == k) = false := by simp [hk]
      simp [hb, hk]
  | cons p m ih =>
    by_cases hk : k2 = p.1
    · have hb : (k2 == p.1) = true := by simp [hk]
      simp [List.lookup, hb]
    · have hb : (k2 == p.1) = false := by simp [hk]
      simp only [List.cons_append, List.lookup, hb]
      exact ih

/-- Lookup after a JavaScript-style single-key assignment. -/
theorem lookup_setKey (m : MetaMap) (k : String) (v : MVal) (k2 : String) :
    (setKey m k v).lookup k2 = if k2 = k then some v else m.lookup k2 := by
  unfold setKey
  by_cases hany : m.any (fun p => decide (p.1 = k)) = true
  · rw [if_pos hany]
    by_cases hk : k2 = k
    · subst hk
      rw [if_pos rfl]
      exact lookup_replace_self m k2 v hany
    · rw [if_neg hk]
      exact lookup_replace_ne m k k2 v hk
  · rw [if_neg hany]
    rw [lookup_append_pair]
    have hmem : k ∉ m.map Prod.fst := by
      intro hc
      rcases List.mem_map.mp hc with ⟨q, hq, hq1⟩
      exact hany (List.any_eq_true.mpr ⟨q, hq, by simp [hq1]⟩)
    have hnone := lookup_none_of_not_mem m k hmem
    by_cases hk : k2 = k
    · subst hk
      simp [hnone]
    · rw [if_neg hk]
      cases hml : m.lookup k2 <;> simp [hml, hk]

/-- Lookup in a merged metadata map: keys of the second map win. -/
theorem lookup_mergeMeta : ∀ (new old : MetaMap) (k : String),
    (new.map Prod.fst).Nodup →
    (mergeMeta old new).lookup k =
      match new.lookup k with
      | some v => some v
      | none => old.lookup k := by
  intro new
  induction new with
  | nil => intro old k _; rfl
  | cons p new ih =>
    intro old k hnd
    simp only [List.map_cons, List.nodup_cons] at hnd
    obtain ⟨hnotmem, hnd⟩ := hnd
    have hstep : mergeMeta old (p :: new) = mergeMeta (setKey old p.1 p.2) new := rfl
    rw [hstep, ih (setKey old p.1 p.2) k hnd]
    by_cases hk : k = p.1
    · have hlook : new.lookup k = none := by
        apply lookup_none_of_not_mem
        rw [hk]
        exact hnotmem
      have hb : (k == p.1) = true := by simp [hk]
      rw [hk] at hlook
      simp [List.lookup, hb, hlook, lookup_setKey, hk]
    · have hb : (k == p.1) = false := by simp [hk]
      simp only [List.lookup, hb]
      rw [lookup_setKey]
      rw [if_neg hk]

/-- A denying verdict at the head of the pipeline stops it at once with
that verdict. -/
theorem runModifiers_deny (m : FModifier) (ms : List FModifier) (meta : MetaMap)
    (aml : Option MVal) (r : PipeResult)
    (hex : m.exec meta = Except.ok r) (hal : r.allowed = false) :
    runModifiers (m :: ms) meta aml =
      (LoopOutcome.denied (r.reason.getD ("Rejected by " ++ m.name))
        (updateAml aml r.metadata), [m.name]) := by
  simp only [runModifiers, hex, hal, Bool.false_eq_true, if_false]

/-- An allowing verdict at the head of the pipeline merges its metadata
before the rest of the pipeline runs. -/
theorem runModifiers_allow (m : FModifier) (ms : List FModifier) (meta : MetaMap)
    (aml : Option MVal) (r : PipeResult)
    (hex : m.exec meta = Except.ok r) (hal : r.allowed = true) :
    runModifiers (m :: ms) meta aml =
      ((runModifiers ms (mergeMeta meta r.metadata) (updateAml aml r.metadata)).1,
       m.name :: (runModifiers ms (mergeMeta meta r.metadata) (updateAml aml r.metadata)).2) := by
  simp only [runModifiers, hex, hal, if_true]

/-- The invoked modifiers always form an order-preserving front segment
of the registered list. -/
theorem runModifiers_trace_take : ∀ (mods : List FModifier) (meta : MetaMap)
    (aml : Option MVal),
    ∃ k, (runModifiers mods meta aml).2 = (mods.map (fun m => m.name)).take k := by
  intro mods
  induction mods with
  | nil => exact fun meta aml => ⟨0, rfl⟩
  | cons m ms ih =>
    intro meta aml
    rcases hex : m.exec meta with e | r
    · refine ⟨1, ?_⟩
      simp [runModifiers, hex]
    · by_cases hal : r.allowed = true
      · obtain ⟨k, hk⟩ := ih (mergeMeta meta r.metadata) (updateAml aml r.metadata)
        refine ⟨k + 1, ?_⟩
        rw [runModifiers_allow m ms meta aml r hex hal]
        simp [hk]
      · refine ⟨1, ?_⟩
        rw [runModifiers_deny m ms meta aml r hex (by simpa using hal)]
        simp

/-- The constructor sort orders the registered modifiers ascending by
priority and permutes the registered list. -/
theorem sortModifiers_sorted_perm (mods : List FModifier) :
    List.Sorted (fun a b : Int => a ≤ b)
      ((sortModifiers mods).map (fun m => m.priority)) ∧
    (sortModifiers mods).Perm mods := by
  constructor
  · have hs : List.Sorted (fun a b : FModifier => a.priority ≤ b.priority)
        (sortModifiers mods) := by
      haveI : IsTotal FModifier (fun a b => a.priority ≤ b.priority) :=
        ⟨fun a b => le_total _ _⟩
      haveI : IsTrans FModifier (fun a b => a.priority ≤ b.priority) :=
        ⟨fun _ _ _ hab hbc => le_trans hab hbc⟩
      exact List.sorted_insertionSort _ mods
    exact List.pairwise_map.mpr hs
  · exact List.perm_insertionSort _ mods

/-- A signature-recovery fault is caught by the outer catch of `verify`. -/
theorem verify_recover_fault (env : FacEnv) (p : PaymentPayload)
    (reqs : PaymentRequirements) (mods : List FModifier) (ep : ExactPayload) (e : String)
    (hex : p.exact = some ep)
    (hp : ep.authorization.fromAddress ≠ "") (hsig : ep.signature ≠ "")
    (hrec : env.recover (messageFor p reqs ep) ep.signature = Except.error e) :
    verify env p reqs mods =
      ({ isValid := false, invalidReason := some e, payer := none, amlCheck := none }, []) := by
  unfold verify
  rw [hex]
  simp [hp, hsig, hrec]

/-- A balance-read fault is caught by the outer catch of `verify`. -/
theorem verify_balance_fault (env : FacEnv) (p : PaymentPayload)
    (reqs : PaymentRequirements) (mods : List FModifier) (ep : ExactPayload)
    (recovered e : String)
    (hex : p.exact = some ep)
    (hp : ep.authorization.fromAddress ≠ "") (hsig : ep.signature ≠ "")
    (hrec : env.recover (messageFor p reqs ep) ep.signature = Except.ok recovered)
    (hmatch : lowerStr recovered = lowerStr ep.authorization.fromAddress)
    (hbal : env.balanceOf ep.authorization.fromAddress = Except.error e) :
    verify env p reqs mods =
      ({ isValid := false, invalidReason := some e, payer := none, amlCheck := none }, []) := by
  unfold verify
  rw [hex]
  simp [hp, hsig, hrec, hmatch, hbal]

/-- A modifier fault is caught by the outer catch of `verify`. -/
theorem verify_modifier_fault (env : FacEnv) (p : PaymentPayload)
    (reqs : PaymentRequirements) (mods : List FModifier) (ep : ExactPayload)
    (recovered e : String) (balance : Nat) (tr : List String)
    (hex : p.exact = some ep)
    (hp : ep.authorization.fromAddress ≠ "") (hsig : ep.signature ≠ "")
    (hrec : env.recover (messageFor p reqs ep) ep.signature = Except.ok recovered)
    (hmatch : lowerStr recovered = lowerStr ep.authorization.fromAddress)
    (hbal : env.balanceOf ep.authorization.fromAddress = Except.ok balance)
    (hge : ¬ balance < reqs.maxAmountRequired)
    (hrun : runModifiers mods [] none = (LoopOutcome.fault e, tr)) :
    verify env p reqs mods =
      ({ isValid := false, invalidReason := some e, payer := none, amlCheck := none }, tr) := by
  unfold verify
  rw [hex]
  simp [hp, hsig, hrec, hmatch, hbal, hge, hrun]

end RealFacilitator

/-!
Concrete runs used to exhibit counterexamples and to instantiate the
claim theorems.
-/

/-- A run in which the oracle flags the address and all chain reads
succeed (five transactions, zero balance, no code). -/
def envOracleHit : ChainEnv :=
  { isValidAddress := true, oraclePresent := true, oracleResult := Except.ok true,
    fallbackToLocal := true, codeResult := Except.ok "0x",
    txCountResult := Except.ok 5, balanceResult := Except.ok 0 }

/-- The assessment `checkAddress` produces in the run `envOracleHit`. -/
def resultOracleHit : AMLCheckResult :=
  { address := "0xAbC", riskScore := 100, riskLevel := RiskLevel.CRITICAL,
    flags := ["SANCTIONED", "New wallet", "Zero balance"], sanctioned := true,
    walletAge := 0, transactionCount := 5, isContract := false, hasTokens := true }

/-- A run on a clean fresh wallet: oracle answers false, no code, zero
transactions. -/
def envFreshWallet : ChainEnv :=
  { isValidAddress := true, oraclePresent := true, oracleResult := Except.ok false,
    fallbackToLocal := true, codeResult := Except.ok "0x",
    txCountResult := Except.ok 0, balanceResult := Except.ok 7 }

/-- The assessment `checkAddress` produces in the run `envFreshWallet`. -/
def resultFreshWallet : AMLCheckResult :=
  { address := "0xDef", riskScore := 60, riskLevel := RiskLevel.MEDIUM,
    flags := ["No transactions"], sanctioned := false,
    walletAge := 0, transactionCount := 0, isContract := false, hasTokens := false }

/-- A run on a clean contract address with zero transactions. -/
def envContractFresh : ChainEnv :=
  { isValidAddress := true, oraclePresent := true, oracleResult := Except.ok false,
    fallbackToLocal := true, codeResult := Except.ok "0x6080",
    txCountResult := Except.ok 0, balanceResult := Except.ok 7 }

/-- The assessment `checkAddress` produces in the run `envContractFresh`. -/
def resultContractFresh : AMLCheckResult :=
  { address := "0xDef", riskScore := 90, riskLevel := RiskLevel.CRITICAL,
    flags := ["Contract address", "No transactions"], sanctioned := false,
    walletAge := 0, transactionCount := 0, isContract := true, hasTokens := false }

/-- A run on a clean address whose code read throws. -/
def envDegraded : ChainEnv :=
  { isValidAddress := true, oraclePresent := true, oracleResult := Except.ok false,
    fallbackToLocal := true, codeResult := Except.error "RPC error",
    txCountResult := Except.ok 9, balanceResult := Except.ok 1 }

/-!
Claim theorems.
-/

/-- C1: every assessment produced by `AMLChecker.checkAddress` has
`riskScore = 100` exactly when its `sanctioned` field is true; a
non-sanctioned score is at most 30 + 40 + 20 = 90. -/
theorem riskScore_100_iff_sanctioned
    (env : ChainEnv) (s : List String) (address : String)
    (r : AMLCheckResult) (s1 : List String) (reads : List ReadEvent)
    (h : AMLChecker.checkAddress env s address = Except.ok (r, s1, reads)) :
    r.riskScore = 100 ↔ r.sanctioned = true := by
  unfold AMLChecker.checkAddress at h
  split at h
  · exact absurd h (by simp)
  · split at h
    · exact absurd h (by simp)
    · simp only [Except.ok.injEq, Prod.mk.injEq] at h
      obtain ⟨h1, _, _⟩ := h
      subst h1
      exact calculateRiskScore_eq_100_iff _ _

/-- Witness for C1: the invariant evaluated on the concrete sanctioned
run `envOracleHit`. -/
theorem riskScore_100_iff_sanctioned_witness :
    resultOracleHit.riskScore = 100 ↔ resultOracleHit.sanctioned = true :=
  riskScore_100_iff_sanctioned envOracleHit [] "0xAbC" resultOracleHit ["0xabc"]
    [ReadEvent.getCode, ReadEvent.getTxCount, ReadEvent.getBalance] rfl

/-- C2 counterexample: on a sanctioned address `checkAddress` still
performs the behavioral analysis: the code, transaction-count and
balance reads all happen, against the claim that they are skipped
entirely. -/
theorem sanctioned_reads_counterexample :
    AMLChecker.checkAddress envOracleHit [] "0xAbC" =
      Except.ok (resultOracleHit, ["0xabc"],
        [ReadEvent.getCode, ReadEvent.getTxCount, ReadEvent.getBalance]) ∧
    resultOracleHit.sanctioned = true := ⟨rfl, rfl⟩

/-- C2 amended: a sanctioned assessment does report `score = 100` and
`sanctioned = true`, but only the score computation short-circuits; the
behavioral analysis still runs, so at least the code-presence read is
attempted. -/
theorem sanctioned_score_shortcircuit_only
    (env : ChainEnv) (s : List String) (address : String)
    (r : AMLCheckResult) (s1 : List String) (reads : List ReadEvent)
    (h : AMLChecker.checkAddress env s address = Except.ok (r, s1, reads))
    (hs : r.sanctioned = true) :
    r.riskScore = 100 ∧ ReadEvent.getCode ∈ reads := by
  unfold AMLChecker.checkAddress at h
  split at h
  · exact absurd h (by simp)
  · split at h
    · exact absurd h (by simp)
    · simp only [Except.ok.injEq, Prod.mk.injEq] at h
      obtain ⟨h1, _, h3⟩ := h
      subst h1
      subst h3
      exact ⟨(calculateRiskScore_eq_100_iff _ _).mpr hs, getCode_mem_analyze env⟩

/-- Witness for the amended C2 at the concrete run `envOracleHit`. -/
theorem sanctioned_score_shortcircuit_only_witness :
    resultOracleHit.riskScore = 100 ∧
      ReadEvent.getCode ∈
        [ReadEvent.getCode, ReadEvent.getTxCount, ReadEvent.getBalance] :=
  sanctioned_score_shortcircuit_only envOracleHit [] "0xAbC" resultOracleHit
    ["0xabc"] [ReadEvent.getCode, ReadEvent.getTxCount, ReadEvent.getBalance] rfl rfl

/-- C3 counterexample: a clean non-contract address with zero
transactions scores 60, not the claimed 40, because a zero transaction
count also forces `walletAge = 0`, which adds 20 more points. -/
theorem fresh_wallet_score_counterexample :
    AMLChecker.checkAddress envFreshWallet [] "0xDef" =
      Except.ok (resultFreshWallet, [], [ReadEvent.getCode, ReadEvent.getTxCount]) ∧
    resultFreshWallet.riskScore ≠ 40 := ⟨rfl, by decide⟩

/-- C3 amended: a valid, non-sanctioned, non-contract address with zero
transactions scores 60 (40 for no transactions plus 20 for the zero age
estimate), is tier MEDIUM, and passes `isAddressAllowed` at the default
threshold 70. -/
theorem fresh_wallet_assessment (env : ChainEnv) (s s1 : List String) (address : String)
    (hv : env.isValidAddress = true)
    (hs : AMLChecker.isSanctioned env s address = Except.ok (false, s1))
    (hc : env.codeResult = Except.ok "0x")
    (ht : env.txCountResult = Except.ok 0) :
    ∃ r reads, AMLChecker.checkAddress env s address = Except.ok (r, s1, reads) ∧
      r.riskScore = 60 ∧ r.riskLevel = RiskLevel.MEDIUM ∧
      AMLChecker.isAddressAllowed env s 70 address = Except.ok ((true, r), s1, reads) := by
  have ha := analyze_tx0 env hc ht
  have hca : AMLChecker.checkAddress env s address =
      Except.ok ({ address := address, riskScore := 60, riskLevel := RiskLevel.MEDIUM,
                   flags := ["No transactions"], sanctioned := false, walletAge := 0,
                   transactionCount := 0, isContract := false, hasTokens := false },
                 s1, [ReadEvent.getCode, ReadEvent.getTxCount]) := by
    simp [AMLChecker.checkAddress, hv, hs, ha, AMLChecker.calculateRiskScore,
      AMLChecker.getRiskLevel]
  refine ⟨_, _, hca, rfl, rfl, ?_⟩
  simp [AMLChecker.isAddressAllowed, hca]

/-- Witness for the amended C3 at the concrete run `envFreshWallet`. -/
theorem fresh_wallet_assessment_witness :
    ∃ r reads, AMLChecker.checkAddress envFreshWallet [] "0xDef" =
        Except.ok (r, [], reads) ∧
      r.riskScore = 60 ∧ r.riskLevel = RiskLevel.MEDIUM ∧
      AMLChecker.isAddressAllowed envFreshWallet [] 70 "0xDef" =
        Except.ok ((true, r), [], reads) :=
  fresh_wallet_assessment envFreshWallet [] [] "0xDef" rfl rfl rfl rfl

/-- C4 counterexample: a clean contract address with zero transactions
scores 90 (30 + 40 + 20), not the claimed 70, and is tier CRITICAL, not
HIGH; consequently the manual-review soft-pass (which requires tier
HIGH) does not fire and the modifier denies even with
`requireManualReview = true`. -/
theorem contract_fresh_counterexample :
    AMLChecker.checkAddress envContractFresh [] "0xDef" =
      Except.ok (resultContractFresh, [], [ReadEvent.getCode, ReadEvent.getTxCount]) ∧
    resultContractFresh.riskScore ≠ 70 ∧
    resultContractFresh.riskLevel ≠ RiskLevel.HIGH ∧
    (AMLModifier.execute
        { enabled := true, riskThreshold := 70, requireManualReview := true }
        envContractFresh [] (some "0xDef")).allowed = false :=
  ⟨rfl, by decide, by decide, rfl⟩

/-- C4 amended: a valid, non-sanctioned contract address with zero
transactions scores 90 (30 + 40 + 20) with tier CRITICAL, and for any
threshold at most 90 the enabled modifier denies it for both values of
`requireManualReview`, because the soft-pass applies only to tier HIGH. -/
theorem contract_fresh_assessment (env : ChainEnv) (s s1 : List String)
    (address c : String) (threshold : Nat) (review : Bool)
    (hv : env.isValidAddress = true)
    (hs : AMLChecker.isSanctioned env s address = Except.ok (false, s1))
    (hc : env.codeResult = Except.ok c) (hcc : c ≠ "0x")
    (ht : env.txCountResult = Except.ok 0)
    (hth : threshold ≤ 90) :
    ∃ r reads, AMLChecker.checkAddress env s address = Except.ok (r, s1, reads) ∧
      r.riskScore = 90 ∧ r.riskLevel = RiskLevel.CRITICAL ∧
      (AMLModifier.execute
          { enabled := true, riskThreshold := threshold, requireManualReview := review }
          env s (some address)).allowed = false := by
  have ha := analyze_contract_tx0 env c hc hcc ht
  have hca : AMLChecker.checkAddress env s address =
      Except.ok ({ address := address, riskScore := 90, riskLevel := RiskLevel.CRITICAL,
                   flags := ["Contract address", "No transactions"], sanctioned := false,
                   walletAge := 0, transactionCount := 0, isContract := true,
                   hasTokens := false },
                 s1, [ReadEvent.getCode, ReadEvent.getTxCount]) := by
    simp [AMLChecker.checkAddress, hv, hs, ha, AMLChecker.calculateRiskScore,
      AMLChecker.getRiskLevel]
  have hnlt : ¬ (90 < threshold) := by omega
  refine ⟨_, _, hca, rfl, rfl, ?_⟩
  by_cases haddr : address = ""
  · simp [AMLModifier.execute, haddr]
  · simp [AMLModifier.execute, haddr, AMLChecker.isAddressAllowed, hca, hnlt]

/-- Witness for the amended C4 at the concrete run `envContractFresh`
with the default threshold 70 and manual review on. -/
theorem contract_fresh_assessment_witness :
    ∃ r reads, AMLChecker.checkAddress envContractFresh [] "0xDef" =
        Except.ok (r, [], reads) ∧
      r.riskScore = 90 ∧ r.riskLevel = RiskLevel.CRITICAL ∧
      (AMLModifier.execute
          { enabled := true, riskThreshold := 70, requireManualReview := true }
          envContractFresh [] (some "0xDef")).allowed = false :=
  contract_fresh_assessment envContractFresh [] [] "0xDef" "0x6080" 70 true
    rfl rfl rfl (by decide) rfl (by decide)

/-- C5 counterexample: in the demo copy of the checker a successful
oracle answer of false is returned directly, so an address on the local
list is reported clean, while the logical OR of the claim would report
it sanctioned. -/
theorem demo_sanctions_or_counterexample :
    AMLChecker.isSanctionedDemo envFreshWallet ["0xbad"] "0xBAD" =
      Except.ok (false, ["0xbad"]) ∧
    AMLChecker.sanctionedSpecOr false ["0xbad"] "0xBAD" = true := ⟨rfl, rfl⟩

/-- C5 amended: in the library checker (`x402_a2a/core/compliance/AMLChecker.ts`)
every returned sanctions decision is the logical OR of the oracle answer
and case-insensitive membership in the local list, and every
oracle-confirmed hit is cached in the returned local set; the demo copy
instead returns a successful oracle answer directly, skipping the local
list on an oracle miss. -/
theorem sanctions_or_cache (env : ChainEnv) (s s1 : List String)
    (address : String) (b : Bool)
    (h : AMLChecker.isSanctioned env s address = Except.ok (b, s1)) :
    b = AMLChecker.sanctionedSpecOr (AMLChecker.oracleFlagged env) s address ∧
      (AMLChecker.oracleFlagged env = true → lowerStr address ∈ s1) := by
  unfold AMLChecker.isSanctioned at h
  unfold AMLChecker.oracleFlagged AMLChecker.sanctionedSpecOr
  by_cases hp : env.oraclePresent = true
  · rcases ho : env.oracleResult with e | ob
    · simp only [hp, if_true, ho] at h
      by_cases hf : env.fallbackToLocal = true
      · simp only [hf, if_true, Except.ok.injEq, Prod.mk.injEq] at h
        obtain ⟨hb, hs1⟩ := h
        subst hb hs1
        simp [hp, ho]
      · simp only [hf] at h
        simp at h
    · cases ob
      · simp only [hp, if_true, ho, Except.ok.injEq, Prod.mk.injEq] at h
        obtain ⟨hb, hs1⟩ := h
        subst hb hs1
        simp [hp, ho]
      · simp only [hp, if_true, ho, Except.ok.injEq, Prod.mk.injEq] at h
        obtain ⟨hb, hs1⟩ := h
        subst hb hs1
        simp [hp, ho, mem_setAdd]
  · simp only [Bool.not_eq_true] at hp
    simp only [hp, Bool.false_eq_true, if_false, Except.ok.injEq, Prod.mk.injEq] at h
    obtain ⟨hb, hs1⟩ := h
    subst hb hs1
    simp [hp]

/-- Witness for the amended C5 at the concrete oracle-hit run. -/
theorem sanctions_or_cache_witness :
    (true = AMLChecker.sanctionedSpecOr (AMLChecker.oracleFlagged envOracleHit)
        [] "0xAbC") ∧
      (AMLChecker.oracleFlagged envOracleHit = true → lowerStr "0xAbC" ∈ ["0xabc"]) :=
  sanctions_or_cache envOracleHit [] ["0xabc"] "0xAbC" true rfl

/-- C6: whenever the enabled modifier sees an assessment with
`sanctioned = true`, it denies, for every threshold and every value of
`requireManualReview`. -/
theorem sanctioned_always_denied (config : AMLModifier.AMLModifierConfig)
    (env : ChainEnv) (s : List String) (payer : String)
    (r : AMLCheckResult) (s1 : List String) (reads : List ReadEvent)
    (he : config.enabled = true)
    (h : AMLChecker.checkAddress env s payer = Except.ok (r, s1, reads))
    (hs : r.sanctioned = true) :
    (AMLModifier.execute config env s (some payer)).allowed = false := by
  by_cases hp : payer = ""
  · simp [AMLModifier.execute, he, hp]
  · simp [AMLModifier.execute, he, hp, AMLChecker.isAddressAllowed, h, hs]

/-- Witness for C6 at the oracle-hit run with the most permissive
policy: threshold 100 and manual review on. -/
theorem sanctioned_always_denied_witness :
    (AMLModifier.execute
        { enabled := true, riskThreshold := 100, requireManualReview := true }
        envOracleHit [] (some "0xAbC")).allowed = false :=
  sanctioned_always_denied
    { enabled := true, riskThreshold := 100, requireManualReview := true }
    envOracleHit [] "0xAbC" resultOracleHit ["0xabc"]
    [ReadEvent.getCode, ReadEvent.getTxCount, ReadEvent.getBalance] rfl rfl rfl

/-- C10: when the sanction check clears the address but the behavioral
chain read throws, the degraded assessment scores exactly 60 (40 for the
zero transaction count plus 20 for the zero age estimate), is tier
MEDIUM with the single flag `Analysis failed`, and passes
`isAddressAllowed` at the default threshold 70. -/
theorem degraded_assessment (env : ChainEnv) (s s1 : List String) (address : String)
    (hv : env.isValidAddress = true)
    (hs : AMLChecker.isSanctioned env s address = Except.ok (false, s1))
    (hf : (∃ e, env.codeResult = Except.error e) ∨
          (∃ e, env.txCountResult = Except.error e)) :
    ∃ r reads, AMLChecker.checkAddress env s address = Except.ok (r, s1, reads) ∧
      r.riskScore = 60 ∧ r.riskLevel = RiskLevel.MEDIUM ∧
      r.flags = ["Analysis failed"] ∧
      AMLChecker.isAddressAllowed env s 70 address = Except.ok ((true, r), s1, reads) := by
  obtain ⟨reads, ha⟩ := analyze_failed env hf
  have hca : AMLChecker.checkAddress env s address =
      Except.ok ({ address := address, riskScore := 60, riskLevel := RiskLevel.MEDIUM,
                   flags := ["Analysis failed"], sanctioned := false, walletAge := 0,
                   transactionCount := 0, isContract := false, hasTokens := false },
                 s1, reads) := by
    simp [AMLChecker.checkAddress, hv, hs, ha, AMLChecker.calculateRiskScore,
      AMLChecker.getRiskLevel]
  refine ⟨_, _, hca, rfl, rfl, rfl, ?_⟩
  simp [AMLChecker.isAddressAllowed, hca]

/-- Witness for C10 at the concrete run `envDegraded`, whose code read
throws. -/
theorem degraded_assessment_witness :
    ∃ r reads, AMLChecker.checkAddress envDegraded [] "0xAbC" =
        Except.ok (r, [], reads) ∧
      r.riskScore = 60 ∧ r.riskLevel = RiskLevel.MEDIUM ∧
      r.flags = ["Analysis failed"] ∧
      AMLChecker.isAddressAllowed envDegraded [] 70 "0xAbC" =
        Except.ok ((true, r), [], reads) :=
  degraded_assessment envDegraded [] [] "0xAbC" rfl rfl (Or.inl ⟨"RPC error", rfl⟩)

namespace RealFacilitator

/-- A modifier that always denies with an explicit reason. -/
def denyMod : FModifier :=
  { priority := 20, name := "Deny",
    exec := fun _ =>
      Except.ok { allowed := false, reason := some "denied by policy", metadata := [] } }

/-- A modifier that always allows and contributes one metadata key. -/
def allowMod : FModifier :=
  { priority := 10, name := "Allow",
    exec := fun _ =>
      Except.ok { allowed := true, reason := none,
                  metadata := [("checked", MVal.boolV true)] } }

/-- Authorization of the concrete payment used in the facilitator
witnesses. -/
def authzA : Authorization := { fromAddress := "0xAbC", extraMessage := some "pay me" }

/-- Exact payload of the concrete payment. -/
def exactA : ExactPayload := { authorization := authzA, signature := "sigA" }

/-- Payload of the concrete payment. -/
def payloadA : PaymentPayload := { network := "base-sepolia", exact := some exactA }

/-- Requirements of the concrete payment: five units of the asset. -/
def reqsA : PaymentRequirements :=
  { asset := "0xUSDC", payTo := "0xMerchant", maxAmountRequired := 5,
    network := "base-sepolia" }

/-- A run whose signature recovery throws. -/
def envRecFault : FacEnv :=
  { recover := fun _ _ => Except.error "network error",
    balanceOf := fun _ => Except.ok 10 }

/-- A run whose signature recovery matches (up to case) but whose payer
balance is 3, below the required 5. -/
def envBalLow : FacEnv :=
  { recover := fun _ _ => Except.ok "0xabc",
    balanceOf := fun _ => Except.ok 3 }

/-- C7: the registered modifiers are sorted ascending by priority at
construction (a permutation of the registered list); the pipeline stops
at the first denying verdict, returning its reason (or a default naming
the module) without invoking any later modifier; an allowing verdict
has its metadata merged into the context, later keys overwriting
earlier ones, before the next modifier runs; and the invoked modifiers
always form a front segment of the list, in list order. -/
theorem modifier_chain_spec :
    (∀ mods : List FModifier,
        List.Sorted (fun a b : Int => a ≤ b)
          ((sortModifiers mods).map (fun m => m.priority)) ∧
        (sortModifiers mods).Perm mods) ∧
    (∀ (m : FModifier) (ms : List FModifier) (meta : MetaMap) (aml : Option MVal)
        (r : PipeResult), m.exec meta = Except.ok r → r.allowed = false →
        runModifiers (m :: ms) meta aml =
          (LoopOutcome.denied (r.reason.getD ("Rejected by " ++ m.name))
            (updateAml aml r.metadata), [m.name])) ∧
    (∀ (m : FModifier) (ms : List FModifier) (meta : MetaMap) (aml : Option MVal)
        (r : PipeResult), m.exec meta = Except.ok r → r.allowed = true →
        runModifiers (m :: ms) meta aml =
          ((runModifiers ms (mergeMeta meta r.metadata) (updateAml aml r.metadata)).1,
           m.name ::
             (runModifiers ms (mergeMeta meta r.metadata) (updateAml aml r.metadata)).2)) ∧
    (∀ (old new : MetaMap) (k : String), (new.map Prod.fst).Nodup →
        (mergeMeta old new).lookup k =
          match new.lookup k with
          | some v => some v
          | none => old.lookup k) ∧
    (∀ (mods : List FModifier) (meta : MetaMap) (aml : Option MVal),
        ∃ k, (runModifiers mods meta aml).2 = (mods.map (fun m => m.name)).take k) :=
  ⟨sortModifiers_sorted_perm, runModifiers_deny, runModifiers_allow,
   fun old new k hnd => lookup_mergeMeta new old k hnd, runModifiers_trace_take⟩

/-- Witness for C7: a concrete two-modifier pipeline that halts on the
first (denying) modifier with its reason, invoking nothing after it. -/
theorem modifier_chain_spec_witness :
    runModifiers [denyMod, allowMod] [] none =
      (LoopOutcome.denied "denied by policy" none, ["Deny"]) :=
  modifier_chain_spec.2.1 denyMod [allowMod] [] none
    { allowed := false, reason := some "denied by policy", metadata := [] } rfl rfl

/-- C8: `verify` is a total function of the run, and a fault thrown at
signature recovery, at the balance read, or inside the modifier chain is
caught and surfaced as `isValid = false` with the fault message as the
invalid reason, never propagated to the caller. -/
theorem verify_fault_containment :
    (∀ (env : FacEnv) (p : PaymentPayload) (reqs : PaymentRequirements)
        (mods : List FModifier) (ep : ExactPayload) (e : String),
        p.exact = some ep →
        ep.authorization.fromAddress ≠ "" → ep.signature ≠ "" →
        env.recover (messageFor p reqs ep) ep.signature = Except.error e →
        verify env p reqs mods =
          ({ isValid := false, invalidReason := some e,
             payer := none, amlCheck := none }, [])) ∧
    (∀ (env : FacEnv) (p : PaymentPayload) (reqs : PaymentRequirements)
        (mods : List FModifier) (ep : ExactPayload) (recovered e : String),
        p.exact = some ep →
        ep.authorization.fromAddress ≠ "" → ep.signature ≠ "" →
        env.recover (messageFor p reqs ep) ep.signature = Except.ok recovered →
        lowerStr recovered = lowerStr ep.authorization.fromAddress →
        env.balanceOf ep.authorization.fromAddress = Except.error e →
        verify env p reqs mods =
          ({ isValid := false, invalidReason := some e,
             payer := none, amlCheck := none }, [])) ∧
    (∀ (env : FacEnv) (p : PaymentPayload) (reqs : PaymentRequirements)
        (mods : List FModifier) (ep : ExactPayload) (recovered e : String)
        (balance : Nat) (tr : List String),
        p.exact = some ep →
        ep.authorization.fromAddress ≠ "" → ep.signature ≠ "" →
        env.recover (messageFor p reqs ep) ep.signature = Except.ok recovered →
        lowerStr recovered = lowerStr ep.authorization.fromAddress →
        env.balanceOf ep.authorization.fromAddress = Except.ok balance →
        ¬ balance < reqs.maxAmountRequired →
        runModifiers mods [] none = (LoopOutcome.fault e, tr) →
        verify env p reqs mods =
          ({ isValid := false, invalidReason := some e,
             payer := none, amlCheck := none }, tr)) :=
  ⟨fun env p reqs mods ep e hex hp hsig hrec =>
      verify_recover_fault env p reqs mods ep e hex hp hsig hrec,
   fun env p reqs mods ep recovered e hex hp hsig hrec hmatch hbal =>
      verify_balance_fault env p reqs mods ep recovered e hex hp hsig hrec hmatch hbal,
   fun env p reqs mods ep recovered e balance tr hex hp hsig hrec hmatch hbal hge hrun =>
      verify_modifier_fault env p reqs mods ep recovered e balance tr
        hex hp hsig hrec hmatch hbal hge hrun⟩

/-- Witness for C8: a concrete run whose signature recovery throws is
surfaced as an invalid result carrying the fault message. -/
theorem verify_fault_containment_witness :
    verify envRecFault payloadA reqsA [] =
      ({ isValid := false, invalidReason := some "network error",
         payer := none, amlCheck := none }, []) :=
  verify_fault_containment.1 envRecFault payloadA reqsA [] exactA "network error"
    rfl (by decide) (by decide) rfl

/-- C9: a payment whose payer balance is below the required amount is
rejected with reason `Insufficient balance` before the modifier chain
runs: no modifier is invoked and the result carries no compliance
metadata. -/
theorem verify_balance_gate (env : FacEnv) (p : PaymentPayload)
    (reqs : PaymentRequirements) (mods : List FModifier) (ep : ExactPayload)
    (recovered : String) (balance : Nat)
    (hex : p.exact = some ep)
    (hp : ep.authorization.fromAddress ≠ "") (hsig : ep.signature ≠ "")
    (hrec : env.recover (messageFor p reqs ep) ep.signature = Except.ok recovered)
    (hmatch : lowerStr recovered = lowerStr ep.authorization.fromAddress)
    (hbal : env.balanceOf ep.authorization.fromAddress = Except.ok balance)
    (hlt : balance < reqs.maxAmountRequired) :
    verify env p reqs mods =
      ({ isValid := false, invalidReason := some "Insufficient balance",
         payer := some ep.authorization.fromAddress, amlCheck := none }, []) := by
  unfold verify
  rw [hex]
  simp [hp, hsig, hrec, hmatch, hbal, hlt]

/-- Witness for C9: a concrete underfunded payment is rejected with the
balance reason and an empty modifier trace even though a denying
modifier is registered. -/
theorem verify_balance_gate_witness :
    verify envBalLow payloadA reqsA [denyMod] =
      ({ isValid := false, invalidReason := some "Insufficient balance",
         payer := some "0xAbC", amlCheck := none }, []) :=
  verify_balance_gate envBalLow payloadA reqsA [denyMod] exactA "0xabc" 3
    rfl (by decide) (by decide) rfl rfl rfl (by decide)

end RealFacilitator

end X402
